import Mathlib

/-!
Shallow embedding of the epistery-host agent lifecycle engine
(`src/AgentManager.mjs` and the shutdown handling of `src/index.mjs`).

The JavaScript source is modelled by executable Lean definitions:

* `Manifest`, `DirEntry`, `AgentsDir` model the on-disk data that
  `AgentManager.discover` reads; filesystem effects (`existsSync`,
  `readdirSync`, `JSON.parse`) become fields of `DirEntry`.
* `discover` mirrors the scan loop of `AgentManager.discover`
  (AgentManager.mjs lines 34-76) including its console output.
* `AgentModule` / `AgentInstance` model the dynamically imported agent
  code: whether `import` resolves, whether the constructor throws, and
  which of the optional `attach` / `cleanup` capabilities the instance
  exposes, together with the sub-routes `attach` would register.
* `HostState` carries the registry `Map` (`this.agents`, as an
  insertion-ordered association list with JS `Map.set` semantics), the
  express mounts made via `app.use`, the routers created by
  `express.Router()` (identified by a fresh counter), a trace of module
  imports, and the console log.
* `loadAgent`, `loadAll`, `cleanup` mirror the corresponding methods of
  `AgentManager` (lines 81-160); a thrown JS error is an `Option LoadErr`
  result that `loadAll` catches.
* `gracefulShutdown` / `handleSignal` model the guarded shutdown of
  `src/index.mjs` lines 639-694.
-/

namespace EpisteryHost

/-- Fields of `epistery.json` consumed by the core loader.  `name` is the
npm package name; `none` or `""` both make the JS truthiness test
`!manifest.name` fail (AgentManager.mjs line 101). -/
structure Manifest where
  name : Option String
  version : Option String
deriving Repr, DecidableEq

/-- JS falsiness of `manifest.name` (line 101: `if (!manifest.name)`). -/
def Manifest.nameFalsy (m : Manifest) : Bool :=
  match m.name with
  | none => true
  | some s => s.isEmpty

/-- Route-name derivation (line 107):
the JS replace of the anchored `@` marker with the empty string
removes exactly one leading `@`. -/
def routeName (s : String) : String :=
  match s.data with
  | List.cons c rest => if c = '@' then String.mk rest else s
  | List.nil => s

/-- Canonical mount path (line 127):
`/.well-known/epistery/agent/$\x7brouteName\x7d`. -/
def wellKnownPathOf (r : String) : String :=
  "/.well-known/epistery/agent/" ++ r

/-- Short mount path (line 128): `/agent/$\x7brouteName\x7d`. -/
def shortPathOf (r : String) : String :=
  "/agent/" ++ r

/-- One entry of `readdirSync(agentsPath, \x7b withFileTypes: true \x7d)`,
together with the filesystem facts `discover` queries about it:
`existsSync` of the manifest and entry files, and the result of
`JSON.parse(readFileSync(manifestPath))` (`none` when parsing throws). -/
structure DirEntry where
  name : String
  isDirectory : Bool
  isSymbolicLink : Bool
  hasManifest : Bool
  hasEntry : Bool
  manifestJSON : Option Manifest
deriving Repr, DecidableEq

/-- The discovery root `this.agentsPath`: whether `existsSync` finds it,
and its directory listing when it exists. -/
structure AgentsDir where
  rootExists : Bool
  entries : List DirEntry
deriving Repr, DecidableEq

/-- Discovery record pushed by `discover` (lines 63-68). -/
structure DiscoveryRecord where
  name : String
  path : String
  manifest : Manifest
  entryPath : String
deriving Repr, DecidableEq

/-- Console output of the agent manager, one constructor per
`console.log` / `console.warn` / `console.error` site modelled. -/
inductive LogEntry
  | noAgentsDir
  | missingManifestWarn (localName : String)
  | missingEntryWarn (localName : String)
  | manifestParseError (localName : String)
  | discoveredLog (manifestName : Option String)
  | missingNameError (localName : String)
  | noAttachWarn (localName : String)
  | loadFailed (localName : String)
  | loadedCount (n : Nat)
  | cleanedUp (localName : String)
  | cleanupError (localName : String)
deriving Repr, DecidableEq

/-- The record `discover` pushes for a valid candidate (lines 63-68):
`path` is `join(agentsPath, entry.name)` and `entryPath` is
`join` of the agent directory with the fixed entry filename `index.mjs`. -/
def mkRecord (agentsPath : String) (e : DirEntry) (m : Manifest) : DiscoveryRecord :=
  { name := e.name
    path := agentsPath ++ "/" ++ e.name
    manifest := m
    entryPath := agentsPath ++ "/" ++ e.name ++ "/index.mjs" }

/-- The `for (const entry of entries)` loop of `discover` (lines 43-73):
skip non-directory non-symlink entries silently, warn and skip when the
manifest or entry file is missing, log an error and skip when the
manifest fails to parse, and otherwise push a record. -/
def discoverLoop (agentsPath : String) : List DirEntry → List DiscoveryRecord × List LogEntry
  | List.nil => ([], [])
  | List.cons e rest =>
    if !(e.isDirectory || e.isSymbolicLink) then
      discoverLoop agentsPath rest
    else if !e.hasManifest then
      let r := discoverLoop agentsPath rest
      (r.1, LogEntry.missingManifestWarn e.name :: r.2)
    else if !e.hasEntry then
      let r := discoverLoop agentsPath rest
      (r.1, LogEntry.missingEntryWarn e.name :: r.2)
    else
      match e.manifestJSON with
      | some m =>
        let r := discoverLoop agentsPath rest
        (mkRecord agentsPath e m :: r.1, LogEntry.discoveredLog m.name :: r.2)
      | none =>
        let r := discoverLoop agentsPath rest
        (r.1, LogEntry.manifestParseError e.name :: r.2)

/-- `AgentManager.discover` (lines 34-76): returns `[]` when the root
does not exist, otherwise runs the scan loop. -/
def discover (agentsPath : String) (dir : AgentsDir) : List DiscoveryRecord × List LogEntry :=
  if !dir.rootExists then
    ([], [LogEntry.noAgentsDir])
  else
    discoverLoop agentsPath dir.entries

/-- The live agent object produced by `new AgentClass(...)`: which of the
optional capabilities it exposes, whether those hooks throw when called,
and the GET sub-routes (sub-path, response body) its `attach` registers
on the router it is given. -/
structure AgentInstance where
  hasAttach : Bool
  attachOk : Bool
  attachRoutes : List (String × String)
  hasCleanup : Bool
  cleanupOk : Bool
deriving Repr, DecidableEq

/-- Behaviour of the agent module at `entryPath`: whether dynamic
`import` succeeds with a default export, whether the constructor
returns, and the instance it constructs. -/
structure AgentModule where
  importOk : Bool
  ctorOk : Bool
  inst : AgentInstance
deriving Repr, DecidableEq

/-- A discovery record paired with the behaviour of the module it points
at; this is the input `loadAgent` consumes. -/
structure AgentInfo where
  name : String
  manifest : Manifest
  module : AgentModule
deriving Repr, DecidableEq

/-- Errors a single agent load can throw (caught by `loadAll`):
a failed dynamic import, a throwing constructor, a throwing `attach`. -/
inductive LoadErr
  | importFailure
  | ctorThrow
  | attachThrow
deriving Repr, DecidableEq

/-- Registry value stored by `this.agents.set(name, ...)` (lines 138-143). -/
structure RegistryEntry where
  manifest : Manifest
  inst : AgentInstance
  wellKnownPath : String
  shortPath : String
deriving Repr, DecidableEq

/-- State of the host: the registry `Map` keyed by local directory name,
the `app.use` mounts (path, router id) in mount order, the routers
created so far (router id, registered sub-routes), the trace of module
imports attempted, the fresh-router counter, and the console log. -/
structure HostState where
  agents : List (String × RegistryEntry)
  mounts : List (String × Nat)
  routers : List (Nat × List (String × String))
  imports : List String
  nextRouterId : Nat
  log : List LogEntry
deriving Repr, DecidableEq

/-- The state of a freshly constructed `AgentManager` on a fresh app. -/
def initState : HostState :=
  { agents := [], mounts := [], routers := [], imports := []
    nextRouterId := 0, log := [] }

/-- JS `Map.set`: replace in place when the key is present (keeping its
original insertion position), append otherwise. -/
def mapSet (m : List (String × RegistryEntry)) (k : String) (v : RegistryEntry) :
    List (String × RegistryEntry) :=
  if m.any (fun p => p.1 == k) then
    m.map (fun p => if p.1 == k then (k, v) else p)
  else
    m ++ [(k, v)]

/-- `AgentManager.loadAgent` (lines 98-144).  A thrown error is returned
as `some e` (propagating to the caller); `none` means the method
returned normally, which includes the missing-name early return of
lines 101-104. -/
def loadAgent (info : AgentInfo) (st : HostState) : HostState × Option LoadErr :=
  if info.manifest.nameFalsy then
    ({ st with log := st.log ++ [LogEntry.missingNameError info.name] }, none)
  else
    let rName := routeName (info.manifest.name.getD "")
    let st1 : HostState := { st with imports := st.imports ++ [info.name] }
    if !info.module.importOk then
      (st1, some LoadErr.importFailure)
    else if !info.module.ctorOk then
      (st1, some LoadErr.ctorThrow)
    else if info.module.inst.hasAttach && !info.module.inst.attachOk then
      ({ st1 with nextRouterId := st1.nextRouterId + 1 }, some LoadErr.attachThrow)
    else
      let rid := st1.nextRouterId
      let routes := if info.module.inst.hasAttach then info.module.inst.attachRoutes else []
      let st2 : HostState := { st1 with
        nextRouterId := rid + 1
        routers := st1.routers ++ [(rid, routes)]
        log := st1.log ++
          (if info.module.inst.hasAttach then [] else [LogEntry.noAttachWarn info.name]) }
      let wk := wellKnownPathOf rName
      let sp := shortPathOf rName
      let st3 : HostState := { st2 with mounts := st2.mounts ++ [(wk, rid), (sp, rid)] }
      ({ st3 with
          agents := mapSet st3.agents info.name
            { manifest := info.manifest, inst := info.module.inst
              wellKnownPath := wk, shortPath := sp } }, none)

/-- The `for (const agentInfo of discovered)` loop of `loadAll`
(lines 84-90): each load is tried, and a thrown error is caught and
logged with the local name of the agent. -/
def loadAllLoop : List AgentInfo → HostState → HostState
  | List.nil, st => st
  | List.cons info rest, st =>
    let r := loadAgent info st
    match r.2 with
    | some _ => loadAllLoop rest { r.1 with log := r.1.log ++ [LogEntry.loadFailed info.name] }
    | none => loadAllLoop rest r.1

/-- `AgentManager.loadAll` (lines 81-93) applied to a sequence of
discovery records (with their module behaviours): run the loop, then
log the final registry size. -/
def loadAll (infos : List AgentInfo) (st : HostState) : HostState :=
  let st1 := loadAllLoop infos st
  { st1 with log := st1.log ++ [LogEntry.loadedCount st1.agents.length] }

/-- The sub-routes a router ends up with: `express.Router()` starts
empty; `attach` registers the routes of the instance on it. -/
def routerRoutes (routers : List (Nat × List (String × String))) (rid : Nat) :
    List (String × String) :=
  match routers.find? (fun p => p.1 == rid) with
  | some p => p.2
  | none => []

/-- Express route matching inside one router: the first registered
sub-route for this sub-path answers; otherwise the router calls
`next()` and the request falls through. -/
def lookupRoute (routes : List (String × String)) (sub : String) : Option String :=
  match routes.find? (fun p => p.1 == sub) with
  | some p => some p.2
  | none => none

/-- Express dispatch of a request for `mountPath + "/" + sub`: mounted
routers are tried in `app.use` order; a router mounted elsewhere, or one
without a matching sub-route, falls through; `none` is the 404 case. -/
def dispatch (st : HostState) (mountPath sub : String) : Option String :=
  st.mounts.findSome? fun m =>
    if m.1 == mountPath then lookupRoute (routerRoutes st.routers m.2) sub else none

/-- `AgentManager.cleanup` (lines 149-160): walk the registry in
insertion order; call `instance.cleanup()` when it is a function,
logging success or the caught error.  Returns the trace of agents whose
`cleanup()` was invoked, and the console output. -/
def cleanupLoop : List (String × RegistryEntry) → List String × List LogEntry
  | List.nil => ([], [])
  | List.cons p rest =>
    if p.2.inst.hasCleanup then
      let r := cleanupLoop rest
      (p.1 :: r.1,
        (if p.2.inst.cleanupOk then LogEntry.cleanedUp p.1 else LogEntry.cleanupError p.1) :: r.2)
    else
      cleanupLoop rest

/-- Cleanup over the current registry. -/
def cleanup (st : HostState) : List String × List LogEntry :=
  cleanupLoop st.agents

/-- Process termination signals wired to `gracefulShutdown` in
`src/index.mjs` lines 692-694. -/
inductive Signal
  | sigint
  | sigterm
  | sighup
deriving Repr, DecidableEq

/-- Shutdown bookkeeping of `src/index.mjs`: the module-scope guard
`isShuttingDown` (line 26) and the number of times the graceful-shutdown
body (close servers, clean up agents, exit) has been executed. -/
structure ShutdownState where
  isShuttingDown : Bool
  shutdownSequences : Nat
deriving Repr, DecidableEq

/-- `gracefulShutdown` (lines 639-641): return immediately when the
guard is set, otherwise set it and run the shutdown sequence once. -/
def gracefulShutdown (st : ShutdownState) : ShutdownState :=
  if st.isShuttingDown then st
  else { isShuttingDown := true, shutdownSequences := st.shutdownSequences + 1 }

/-- SIGTERM, SIGINT and SIGHUP all invoke the same handler
(lines 692-694); the signal value itself is only interpolated into a
log line. -/
def handleSignal (st : ShutdownState) (_s : Signal) : ShutdownState :=
  gracefulShutdown st

/-- Process start: guard clear, no shutdown run yet. -/
def initShutdown : ShutdownState :=
  { isShuttingDown := false, shutdownSequences := 0 }

/-- Deliver a sequence of signals to the process. -/
def runSignals (sigs : List Signal) : ShutdownState :=
  sigs.foldl handleSignal initShutdown

/-- Characterisation of a valid discovery candidate, following the spec
wording of section 4.2: a directory or symlink entry holding both the
manifest file and the entry file, whose manifest parses.  Compared
against `discover` in the theorems below. -/
def validManifest (e : DirEntry) : Option Manifest :=
  if (e.isDirectory || e.isSymbolicLink) && e.hasManifest && e.hasEntry then
    e.manifestJSON
  else
    none

/-- Route name a load derives for this record (line 107). -/
def routeNameOf (i : AgentInfo) : String :=
  routeName (i.manifest.name.getD "")

/-- Sub-routes the agent router carries after the attach step: empty
when the instance has no `attach`. -/
def attachedRoutes (i : AgentInfo) : List (String × String) :=
  if i.module.inst.hasAttach then i.module.inst.attachRoutes else []

/-- The registry entry a successful load stores for this record. -/
def entryOf (i : AgentInfo) : RegistryEntry :=
  { manifest := i.manifest, inst := i.module.inst
    wellKnownPath := wellKnownPathOf (routeNameOf i)
    shortPath := shortPathOf (routeNameOf i) }

/-- `loadAgent` runs to the registry insertion: name present, import and
constructor succeed, and `attach` (when present) does not throw. -/
def loadSucceeds (i : AgentInfo) : Bool :=
  !i.manifest.nameFalsy && i.module.importOk && i.module.ctorOk &&
    (!i.module.inst.hasAttach || i.module.inst.attachOk)

/-- `loadAgent` throws: the name is present but the import, the
constructor, or a present `attach` fails. -/
def loadThrows (i : AgentInfo) : Bool :=
  !i.manifest.nameFalsy &&
    (!i.module.importOk || !i.module.ctorOk ||
      (i.module.inst.hasAttach && !i.module.inst.attachOk))

/-- Console output of a single `loadAgent` call. -/
def loadAgentLog (i : AgentInfo) : List LogEntry :=
  if i.manifest.nameFalsy then [LogEntry.missingNameError i.name]
  else if !i.module.importOk || !i.module.ctorOk then []
  else if i.module.inst.hasAttach && !i.module.inst.attachOk then []
  else if i.module.inst.hasAttach then []
  else [LogEntry.noAttachWarn i.name]

/-! Concrete sample data, used to instantiate the theorems below on
concrete inputs. -/

/-- Sample discovery root for the discovery theorems: one valid agent
directory, one directory missing the entry file, one whose manifest does
not parse, and one plain file. -/
def c4Dir : AgentsDir :=
  { rootExists := true
    entries :=
      [{ name := "good", isDirectory := true, isSymbolicLink := false,
         hasManifest := true, hasEntry := true,
         manifestJSON := some { name := some "@scope/good", version := some "1.0.0" } },
       { name := "no-entry", isDirectory := true, isSymbolicLink := false,
         hasManifest := true, hasEntry := false,
         manifestJSON := some { name := some "no-entry", version := none } },
       { name := "bad-json", isDirectory := true, isSymbolicLink := false,
         hasManifest := true, hasEntry := true, manifestJSON := none },
       { name := "stray-file", isDirectory := false, isSymbolicLink := false,
         hasManifest := false, hasEntry := false, manifestJSON := none }] }

/-- Sample nonexistent discovery root. -/
def c5Dir : AgentsDir :=
  { rootExists := false
    entries := [] }

/-- Sample discovery record whose manifest has no name. -/
def c6Info : AgentInfo :=
  { name := "broken"
    manifest := { name := none, version := some "0.1.0" }
    module :=
      { importOk := true, ctorOk := true
        inst := { hasAttach := true, attachOk := true, attachRoutes := [("ping", "pong")],
                  hasCleanup := false, cleanupOk := true } } }

/-- Sample agent that loads successfully and attaches one route. -/
def c3Info : AgentInfo :=
  { name := "agentB"
    manifest := { name := some "@scope/agentB", version := some "1.0.0" }
    module :=
      { importOk := true, ctorOk := true
        inst := { hasAttach := true, attachOk := true, attachRoutes := [("ping", "pong")],
                  hasCleanup := false, cleanupOk := true } } }

/-- Sample agent whose instance has no `attach`. -/
def c7Info : AgentInfo :=
  { name := "agentA"
    manifest := { name := some "agentA", version := none }
    module :=
      { importOk := true, ctorOk := true
        inst := { hasAttach := false, attachOk := true, attachRoutes := [("x", "y")],
                  hasCleanup := false, cleanupOk := true } } }

/-- Sample registry with a succeeding cleanup, a failing cleanup, and an
agent without the hook. -/
def c8St : HostState :=
  { agents :=
      [("a", { manifest := { name := some "a", version := none }
               inst := { hasAttach := false, attachOk := true, attachRoutes := [],
                         hasCleanup := true, cleanupOk := true }
               wellKnownPath := "/.well-known/epistery/agent/a", shortPath := "/agent/a" }),
       ("b", { manifest := { name := some "b", version := none }
               inst := { hasAttach := false, attachOk := true, attachRoutes := [],
                         hasCleanup := true, cleanupOk := false }
               wellKnownPath := "/.well-known/epistery/agent/b", shortPath := "/agent/b" }),
       ("c", { manifest := { name := some "c", version := none }
               inst := { hasAttach := false, attachOk := true, attachRoutes := [],
                         hasCleanup := false, cleanupOk := true }
               wellKnownPath := "/.well-known/epistery/agent/c", shortPath := "/agent/c" })]
    mounts := [], routers := [], imports := [], nextRouterId := 0, log := [] }

/-- Sample loadable agent for the fault-isolation theorem. -/
def c1A : AgentInfo :=
  { name := "alpha"
    manifest := { name := some "alpha", version := some "1.0.0" }
    module :=
      { importOk := true, ctorOk := true
        inst := { hasAttach := true, attachOk := true, attachRoutes := [("ping", "a")],
                  hasCleanup := false, cleanupOk := true } } }

/-- Sample agent whose constructor throws. -/
def c1Bad : AgentInfo :=
  { name := "beta"
    manifest := { name := some "beta", version := some "1.0.0" }
    module :=
      { importOk := true, ctorOk := false
        inst := { hasAttach := false, attachOk := true, attachRoutes := [],
                  hasCleanup := false, cleanupOk := true } } }

/-- Sample loadable agent for the fault-isolation theorem. -/
def c1C : AgentInfo :=
  { name := "gamma"
    manifest := { name := some "@scope/gamma", version := some "2.0.0" }
    module :=
      { importOk := true, ctorOk := true
        inst := { hasAttach := false, attachOk := true, attachRoutes := [],
                  hasCleanup := true, cleanupOk := true } } }

/-- Sample agent for the duplicate-local-name theorem. -/
def c10A : AgentInfo :=
  { name := "dup"
    manifest := { name := some "first", version := some "1.0.0" }
    module :=
      { importOk := true, ctorOk := true
        inst := { hasAttach := true, attachOk := true, attachRoutes := [("ping", "one")],
                  hasCleanup := false, cleanupOk := true } } }

/-- Second sample agent with the same local directory name. -/
def c10B : AgentInfo :=
  { name := "dup"
    manifest := { name := some "second", version := some "2.0.0" }
    module :=
      { importOk := true, ctorOk := true
        inst := { hasAttach := true, attachOk := true, attachRoutes := [("ping", "two")],
                  hasCleanup := false, cleanupOk := true } } }

/-! Helper lemmas about the embedding. -/

theorem mapSet_of_not_mem (m : List (String × RegistryEntry)) (k : String) (v : RegistryEntry)
    (h : ∀ q ∈ m, q.1 ≠ k) : mapSet m k v = m ++ [(k, v)] := by
  have hany : m.any (fun p => p.1 == k) = false := by
    simp only [List.any_eq_false, beq_iff_eq]
    exact h
  simp [mapSet, hany]

theorem find?_append_none {α : Type} (l1 l2 : List α) (p : α → Bool)
    (h : ∀ a ∈ l1, p a = false) : (l1 ++ l2).find? p = l2.find? p := by
  induction l1 with
  | nil => simp
  | cons a rest ih =>
    have ha := h a (List.mem_cons_self a rest)
    simp only [List.cons_append, List.find?_cons, ha]
    exact ih (fun b hb => h b (List.mem_cons_of_mem a hb))

theorem findSome?_append_none {α β : Type} (l1 l2 : List α) (f : α → Option β)
    (h : ∀ a ∈ l1, f a = none) : (l1 ++ l2).findSome? f = l2.findSome? f := by
  induction l1 with
  | nil => simp
  | cons a rest ih =>
    have ha := h a (List.mem_cons_self a rest)
    simp only [List.cons_append, List.findSome?_cons, ha]
    exact ih (fun b hb => h b (List.mem_cons_of_mem a hb))

theorem loadSucceeds_nameFalsy (i : AgentInfo) (h : loadSucceeds i = true) :
    i.manifest.nameFalsy = false := by
  simp only [loadSucceeds, Bool.and_eq_true, Bool.not_eq_true'] at h
  exact h.1.1.1

theorem loadThrows_nameFalsy (i : AgentInfo) (h : loadThrows i = true) :
    i.manifest.nameFalsy = false := by
  simp only [loadThrows, Bool.and_eq_true, Bool.not_eq_true'] at h
  exact h.1

theorem loadThrows_not_succeeds (i : AgentInfo) (h : loadThrows i = true) :
    loadSucceeds i = false := by
  cases hs : loadSucceeds i with
  | false => rfl
  | true =>
    exfalso
    simp only [loadThrows, Bool.and_eq_true, Bool.not_eq_true', Bool.or_eq_true,
      Bool.and_eq_true] at h
    simp only [loadSucceeds, Bool.and_eq_true, Bool.not_eq_true', Bool.or_eq_true] at hs
    obtain ⟨⟨⟨_, hi⟩, hc2⟩, ho⟩ := hs
    rcases h.2 with (h1 | h1) | h1
    · rw [hi] at h1
      exact Bool.noConfusion h1
    · rw [hc2] at h1
      exact Bool.noConfusion h1
    · rcases ho with h2 | h2
      · rw [h2] at h1
        exact Bool.noConfusion h1.1
      · rw [h2] at h1
        exact Bool.noConfusion h1.2

theorem loadAgent_succeeds_eq (i : AgentInfo) (st : HostState) (h : loadSucceeds i = true) :
    loadAgent i st =
      ({ st with
          agents := mapSet st.agents i.name (entryOf i)
          mounts := st.mounts ++
            [(wellKnownPathOf (routeNameOf i), st.nextRouterId),
             (shortPathOf (routeNameOf i), st.nextRouterId)]
          routers := st.routers ++ [(st.nextRouterId, attachedRoutes i)]
          imports := st.imports ++ [i.name]
          nextRouterId := st.nextRouterId + 1
          log := st.log ++ loadAgentLog i }, none) := by
  simp only [loadSucceeds, Bool.and_eq_true, Bool.not_eq_true', Bool.or_eq_true,
    Bool.not_eq_true] at h
  obtain ⟨⟨⟨hf, hi⟩, hc⟩, ho⟩ := h
  cases hA : i.module.inst.hasAttach with
  | false =>
    simp [loadAgent, entryOf, routeNameOf, attachedRoutes, loadAgentLog, hf, hi, hc, hA]
  | true =>
    have hok : i.module.inst.attachOk = true := by
      rcases ho with h1 | h1
      · rw [hA] at h1; cases h1
      · exact h1
    simp [loadAgent, entryOf, routeNameOf, attachedRoutes, loadAgentLog, hf, hi, hc, hA, hok]

theorem loadAgent_cases (i : AgentInfo) (st : HostState) :
    (loadAgent i st).1.agents =
        (if loadSucceeds i = true then mapSet st.agents i.name (entryOf i) else st.agents)
    ∧ (loadAgent i st).1.log = st.log ++ loadAgentLog i
    ∧ (loadAgent i st).1.imports =
        (if i.manifest.nameFalsy = true then st.imports else st.imports ++ [i.name])
    ∧ ((loadAgent i st).2 = none ↔ loadThrows i = false) := by
  by_cases h1 : i.manifest.nameFalsy = true <;>
  by_cases h2 : i.module.importOk = true <;>
  by_cases h3 : i.module.ctorOk = true <;>
  by_cases h4 : i.module.inst.hasAttach = true <;>
  by_cases h5 : i.module.inst.attachOk = true <;>
  simp [loadAgent, loadSucceeds, loadThrows, loadAgentLog, entryOf, routeNameOf,
    attachedRoutes, h1, h2, h3, h4, h5]

theorem loadAllLoop_agents (infos : List AgentInfo) :
    ∀ st : HostState, (infos.map AgentInfo.name).Nodup →
      (∀ i ∈ infos, ∀ q ∈ st.agents, q.1 ≠ i.name) →
      (loadAllLoop infos st).agents =
        st.agents ++
          (infos.filter (fun j => loadSucceeds j)).map (fun j => (j.name, entryOf j)) := by
  induction infos with
  | nil =>
    intro st _ _
    simp [loadAllLoop]
  | cons i rest ih =>
    intro st hnd hdisj
    have hnd' : (rest.map AgentInfo.name).Nodup ∧ i.name ∉ rest.map AgentInfo.name := by
      rw [List.map_cons, List.nodup_cons] at hnd
      exact ⟨hnd.2, hnd.1⟩
    rcases hE : loadAgent i st with ⟨st1, err⟩
    have hag : st1.agents =
        (if loadSucceeds i = true then st.agents ++ [(i.name, entryOf i)] else st.agents) := by
      have h0 := (loadAgent_cases i st).1
      rw [hE] at h0
      by_cases hs : loadSucceeds i = true
      · rw [if_pos hs] at h0 ⊢
        rw [h0, mapSet_of_not_mem]
        exact fun q hq => hdisj i (List.mem_cons_self i rest) q hq
      · rw [if_neg hs] at h0 ⊢
        exact h0
    have hdisj1 : ∀ j ∈ rest, ∀ q ∈ st1.agents, q.1 ≠ j.name := by
      intro j hj q hq
      rw [hag] at hq
      by_cases hs : loadSucceeds i = true
      · rw [if_pos hs] at hq
        rcases List.mem_append.mp hq with hq1 | hq1
        · exact hdisj j (List.mem_cons_of_mem i hj) q hq1
        · have hq2 : q = (i.name, entryOf i) := by simpa using hq1
          subst hq2
          intro hcontra
          have hcontra' : i.name = j.name := hcontra
          apply hnd'.2
          rw [hcontra']
          exact List.mem_map_of_mem AgentInfo.name hj
      · rw [if_neg hs] at hq
        exact hdisj j (List.mem_cons_of_mem i hj) q hq
    cases err with
    | none =>
      have hstep : loadAllLoop (i :: rest) st = loadAllLoop rest st1 := by
        simp [loadAllLoop, hE]
      rw [hstep, ih st1 hnd'.1 hdisj1, hag]
      by_cases hs : loadSucceeds i = true
      · rw [if_pos hs]
        simp [List.filter_cons, hs, List.append_assoc]
      · rw [if_neg hs]
        simp [List.filter_cons, hs]
    | some e =>
      have hstep : loadAllLoop (i :: rest) st =
          loadAllLoop rest { st1 with log := st1.log ++ [LogEntry.loadFailed i.name] } := by
        simp [loadAllLoop, hE]
      rw [hstep,
        ih { st1 with log := st1.log ++ [LogEntry.loadFailed i.name] } hnd'.1 hdisj1]
      show st1.agents ++ _ = _
      rw [hag]
      by_cases hs : loadSucceeds i = true
      · rw [if_pos hs]
        simp [List.filter_cons, hs, List.append_assoc]
      · rw [if_neg hs]
        simp [List.filter_cons, hs]

theorem loadAllLoop_log_mem (infos : List AgentInfo) (l : LogEntry) :
    ∀ st : HostState, l ∈ st.log → l ∈ (loadAllLoop infos st).log := by
  induction infos with
  | nil =>
    intro st h
    simpa [loadAllLoop] using h
  | cons i rest ih =>
    intro st h
    rcases hE : loadAgent i st with ⟨st1, err⟩
    have hlog : st1.log = st.log ++ loadAgentLog i := by
      have h0 := (loadAgent_cases i st).2.1
      rw [hE] at h0
      exact h0
    cases err with
    | none =>
      have hstep : loadAllLoop (i :: rest) st = loadAllLoop rest st1 := by
        simp [loadAllLoop, hE]
      rw [hstep]
      exact ih st1 (by rw [hlog]; exact List.mem_append_left _ h)
    | some e =>
      have hstep : loadAllLoop (i :: rest) st =
          loadAllLoop rest { st1 with log := st1.log ++ [LogEntry.loadFailed i.name] } := by
        simp [loadAllLoop, hE]
      rw [hstep]
      refine ih _ ?_
      show l ∈ st1.log ++ [LogEntry.loadFailed i.name]
      rw [hlog]
      exact List.mem_append_left _ (List.mem_append_left _ h)

theorem loadAllLoop_loadFailed (infos : List AgentInfo) (i : AgentInfo)
    (ht : loadThrows i = true) :
    ∀ st : HostState, i ∈ infos → LogEntry.loadFailed i.name ∈ (loadAllLoop infos st).log := by
  induction infos with
  | nil =>
    intro st hi
    cases hi
  | cons j rest ih =>
    intro st hi
    rcases hE : loadAgent j st with ⟨st1, err⟩
    rcases List.mem_cons.mp hi with heq | hmem
    · subst heq
      have h0 := (loadAgent_cases i st).2.2.2
      rw [hE] at h0
      cases err with
      | none =>
        exfalso
        rw [h0.mp rfl] at ht
        exact Bool.noConfusion ht
      | some e =>
        have hstep : loadAllLoop (i :: rest) st =
            loadAllLoop rest { st1 with log := st1.log ++ [LogEntry.loadFailed i.name] } := by
          simp [loadAllLoop, hE]
        rw [hstep]
        apply loadAllLoop_log_mem
        show LogEntry.loadFailed i.name ∈ st1.log ++ [LogEntry.loadFailed i.name]
        simp
    · cases err with
      | none =>
        have hstep : loadAllLoop (j :: rest) st = loadAllLoop rest st1 := by
          simp [loadAllLoop, hE]
        rw [hstep]
        exact ih st1 hmem
      | some e =>
        have hstep : loadAllLoop (j :: rest) st =
            loadAllLoop rest { st1 with log := st1.log ++ [LogEntry.loadFailed j.name] } := by
          simp [loadAllLoop, hE]
        rw [hstep]
        exact ih _ hmem

theorem loadAllLoop_imports (infos : List AgentInfo) :
    ∀ st : HostState, (loadAllLoop infos st).imports =
      st.imports ++ (infos.filter (fun j => !j.manifest.nameFalsy)).map AgentInfo.name := by
  induction infos with
  | nil =>
    intro st
    simp [loadAllLoop]
  | cons i rest ih =>
    intro st
    rcases hE : loadAgent i st with ⟨st1, err⟩
    have himp : st1.imports =
        (if i.manifest.nameFalsy = true then st.imports else st.imports ++ [i.name]) := by
      have h0 := (loadAgent_cases i st).2.2.1
      rw [hE] at h0
      exact h0
    have hstep : (loadAllLoop (i :: rest) st).imports = (loadAllLoop rest st1).imports := by
      cases err with
      | none => simp [loadAllLoop, hE]
      | some e =>
        have : loadAllLoop (i :: rest) st =
            loadAllLoop rest { st1 with log := st1.log ++ [LogEntry.loadFailed i.name] } := by
          simp [loadAllLoop, hE]
        rw [this]
        have h2 := ih { st1 with log := st1.log ++ [LogEntry.loadFailed i.name] }
        rw [h2, ih st1]
    rw [hstep, ih st1, himp]
    by_cases hf : i.manifest.nameFalsy = true
    · rw [if_pos hf]
      simp [List.filter_cons, hf]
    · rw [if_neg hf]
      have hf' : i.manifest.nameFalsy = false := by
        cases hx : i.manifest.nameFalsy
        · rfl
        · exact absurd hx hf
      simp [List.filter_cons, hf', List.append_assoc]

theorem cleanupLoop_calls (l : List (String × RegistryEntry)) :
    (cleanupLoop l).1 = (l.filter (fun q => q.2.inst.hasCleanup)).map Prod.fst
    ∧ (cleanupLoop l).2 = (l.filter (fun q => q.2.inst.hasCleanup)).map
        (fun q => if q.2.inst.cleanupOk then LogEntry.cleanedUp q.1
                  else LogEntry.cleanupError q.1) := by
  induction l with
  | nil => exact ⟨rfl, rfl⟩
  | cons p rest ih =>
    by_cases hc : p.2.inst.hasCleanup = true
    · constructor
      · simp [cleanupLoop, List.filter_cons, hc, ih.1]
      · simp [cleanupLoop, List.filter_cons, hc, ih.2]
    · constructor
      · simp [cleanupLoop, List.filter_cons, hc, ih.1]
      · simp [cleanupLoop, List.filter_cons, hc, ih.2]

theorem foldl_handleSignal_fixed (sigs : List Signal) (n : Nat) :
    sigs.foldl handleSignal { isShuttingDown := true, shutdownSequences := n } =
      { isShuttingDown := true, shutdownSequences := n } := by
  induction sigs with
  | nil => rfl
  | cons s rest ih =>
    simpa [handleSignal, gracefulShutdown] using ih

theorem discoverLoop_records (p : String) (es : List DirEntry) :
    (discoverLoop p es).1 = es.filterMap (fun e => (validManifest e).map (mkRecord p e)) := by
  induction es with
  | nil => rfl
  | cons e rest ih =>
    by_cases h1 : (e.isDirectory || e.isSymbolicLink) = true
    · by_cases h2 : e.hasManifest = true
      · by_cases h3 : e.hasEntry = true
        · cases hm : e.manifestJSON with
          | some m =>
            have hv : validManifest e = some m := by
              simp [validManifest, h1, h2, h3, hm]
            simp [discoverLoop, h1, h2, h3, hm, List.filterMap_cons, hv, ih]
          | none =>
            have hv : validManifest e = none := by
              simp [validManifest, h1, h2, h3, hm]
            simp [discoverLoop, h1, h2, h3, hm, List.filterMap_cons, hv, ih]
        · have hv : validManifest e = none := by
            simp [validManifest, h1, h2, h3]
          simp [discoverLoop, h1, h2, h3, List.filterMap_cons, hv, ih]
      · have hv : validManifest e = none := by
          simp [validManifest, h1, h2]
        simp [discoverLoop, h1, h2, List.filterMap_cons, hv, ih]
    · have hv : validManifest e = none := by
        simp [validManifest, h1]
      simp [discoverLoop, h1, List.filterMap_cons, hv, ih]

/-! Claim theorems. -/

/-- Claim C2: the derived route name is the manifest name with exactly
one leading scope marker removed when present and is the name unchanged
otherwise, and the canonical and short mount paths are
`/.well-known/epistery/agent/` and `/agent/` followed by the route name
verbatim. -/
theorem C2_route_name_derivation :
    (∀ t : String, routeName ("@" ++ t) = t)
    ∧ (∀ s : String, s.data.head? ≠ some '@' → routeName s = s)
    ∧ (∀ n : String,
        wellKnownPathOf (routeName n) = "/.well-known/epistery/agent/" ++ routeName n
        ∧ shortPathOf (routeName n) = "/agent/" ++ routeName n) := by
  refine ⟨?_, ?_, ?_⟩
  · intro t
    obtain ⟨l⟩ := t
    rfl
  · intro s h
    obtain ⟨l⟩ := s
    cases l with
    | nil => rfl
    | cons c cs =>
      have hc : ¬(c = '@') := by
        intro hc
        apply h
        simp [hc]
      simp [routeName, hc]
  · intro n
    exact ⟨rfl, rfl⟩

/-- Claim C2 witness: the scoped name loses exactly its one marker, the
unscoped name is unchanged. -/
theorem C2_route_name_derivation_witness :
    routeName "@scope/name" = "scope/name"
    ∧ routeName "simple-agent" = "simple-agent" := by
  constructor
  · have h := C2_route_name_derivation.1 "scope/name"
    have e : ("@" ++ "scope/name" : String) = "@scope/name" := by decide
    rw [e] at h
    exact h
  · exact C2_route_name_derivation.2.1 "simple-agent" (by decide)

/-- Claim C5: a nonexistent discovery root yields the empty discovery
result with only an informational log line, and no error. -/
theorem C5_missing_root_empty (p : String) (dir : AgentsDir)
    (h : dir.rootExists = false) :
    discover p dir = ([], [LogEntry.noAgentsDir]) := by
  simp [discover, h]

/-- Claim C5 witness: discovery over the sample nonexistent root. -/
theorem C5_missing_root_empty_witness :
    c5Dir.rootExists = false
    ∧ discover "/home/.epistery/.agents" c5Dir = ([], [LogEntry.noAgentsDir]) :=
  ⟨rfl, C5_missing_root_empty "/home/.epistery/.agents" c5Dir rfl⟩

/-- Claim C4: every candidate that is missing the manifest file or the
entry file or whose manifest does not parse is omitted from the
discovery result, every valid candidate is still returned, and the scan
itself is total (one defective sibling aborts nothing). -/
theorem C4_discovery_fault_isolation (p : String) (dir : AgentsDir)
    (hroot : dir.rootExists = true) :
    (discover p dir).1 =
        dir.entries.filterMap (fun e => (validManifest e).map (mkRecord p e))
    ∧ (∀ e ∈ dir.entries, ∀ m : Manifest, validManifest e = some m →
        mkRecord p e m ∈ (discover p dir).1)
    ∧ ((dir.entries.map DirEntry.name).Nodup →
        ∀ e ∈ dir.entries, validManifest e = none →
          ∀ r ∈ (discover p dir).1, r.name ≠ e.name) := by
  have hd : (discover p dir).1 = (discoverLoop p dir.entries).1 := by
    simp [discover, hroot]
  refine ⟨?_, ?_, ?_⟩
  · rw [hd]
    exact discoverLoop_records p dir.entries
  · intro e he m hm
    rw [hd, discoverLoop_records]
    refine List.mem_filterMap.mpr ⟨e, he, ?_⟩
    rw [hm]
    rfl
  · intro hnd e he hnone r hr
    rw [hd, discoverLoop_records] at hr
    obtain ⟨e2, he2, hmap⟩ := List.mem_filterMap.mp hr
    cases hv : validManifest e2 with
    | none =>
      rw [hv] at hmap
      cases hmap
    | some m2 =>
      rw [hv] at hmap
      have hr2 : mkRecord p e2 m2 = r := by simpa using hmap
      subst hr2
      intro hcontra
      have hname : e2.name = e.name := hcontra
      have heq : e2 = e := List.inj_on_of_nodup_map hnd he2 he hname
      subst heq
      rw [hv] at hnone
      cases hnone

/-- Claim C4 witness: on the sample root, only the valid candidate is
discovered; the entry-less directory, the unparsable manifest, and the
plain file are all omitted without aborting the scan. -/
theorem C4_discovery_fault_isolation_witness :
    c4Dir.rootExists = true
    ∧ (discover "/agents" c4Dir).1 =
        [mkRecord "/agents"
          { name := "good", isDirectory := true, isSymbolicLink := false,
            hasManifest := true, hasEntry := true,
            manifestJSON := some { name := some "@scope/good", version := some "1.0.0" } }
          { name := some "@scope/good", version := some "1.0.0" }] :=
  ⟨rfl, ((C4_discovery_fault_isolation "/agents" c4Dir rfl).1).trans (by decide)⟩

/-- Claim C6: a discovery record whose manifest lacks a usable name
fails softly: `loadAgent` returns without throwing, having changed
nothing but the log (so nothing was imported, mounted, or put into the
registry), and the load loop continues with the remaining records. -/
theorem C6_missing_name_skips (info : AgentInfo) (st : HostState) (rest : List AgentInfo)
    (h : info.manifest.nameFalsy = true) :
    loadAgent info st =
      ({ st with log := st.log ++ [LogEntry.missingNameError info.name] }, none)
    ∧ loadAllLoop (info :: rest) st =
        loadAllLoop rest { st with log := st.log ++ [LogEntry.missingNameError info.name] } := by
  have h1 : loadAgent info st =
      ({ st with log := st.log ++ [LogEntry.missingNameError info.name] }, none) := by
    simp [loadAgent, h]
  exact ⟨h1, by simp [loadAllLoop, h1]⟩

/-- Claim C6 witness: the sample nameless record is skipped with only a
log line, from the initial state. -/
theorem C6_missing_name_skips_witness :
    c6Info.manifest.nameFalsy = true
    ∧ loadAgent c6Info initState =
        ({ initState with log := initState.log ++ [LogEntry.missingNameError c6Info.name] },
          none) :=
  ⟨rfl, (C6_missing_name_skips c6Info initState [] rfl).1⟩

/-- Claim C8: cleanup invokes the `cleanup()` hook of exactly the
registered agents that have one, each exactly once in registry order,
regardless of which hooks fail; a failing hook is logged and blocks
nothing, and agents without the hook are skipped without error. -/
theorem C8_cleanup_exactly_once (st : HostState) :
    (cleanup st).1 = (st.agents.filter (fun q => q.2.inst.hasCleanup)).map Prod.fst
    ∧ (cleanup st).2 = (st.agents.filter (fun q => q.2.inst.hasCleanup)).map
        (fun q => if q.2.inst.cleanupOk then LogEntry.cleanedUp q.1
                  else LogEntry.cleanupError q.1)
    ∧ (∀ q ∈ st.agents, q.2.inst.hasCleanup = true → q.2.inst.cleanupOk = false →
        LogEntry.cleanupError q.1 ∈ (cleanup st).2) := by
  refine ⟨(cleanupLoop_calls st.agents).1, (cleanupLoop_calls st.agents).2, ?_⟩
  intro q hq hc hok
  show LogEntry.cleanupError q.1 ∈ (cleanupLoop st.agents).2
  rw [(cleanupLoop_calls st.agents).2]
  have hqf : q ∈ st.agents.filter (fun q => q.2.inst.hasCleanup) :=
    List.mem_filter.mpr ⟨hq, hc⟩
  have hmem := List.mem_map_of_mem
    (fun q => if q.2.inst.cleanupOk then LogEntry.cleanedUp q.1
              else LogEntry.cleanupError q.1) hqf
  simpa [hok] using hmem

/-- Claim C8 witness: on the sample registry both hook-bearing agents
are called once in order, the failing one is logged, the hook-less one
is skipped. -/
theorem C8_cleanup_exactly_once_witness :
    (cleanup c8St).1 = ["a", "b"]
    ∧ LogEntry.cleanupError "b" ∈ (cleanup c8St).2 := by
  constructor
  · exact ((C8_cleanup_exactly_once c8St).1).trans (by decide)
  · rw [(C8_cleanup_exactly_once c8St).2.1]
    decide

/-- Claim C9: any nonempty sequence of termination signals, in any order
and multiplicity, runs the graceful-shutdown sequence exactly once; once
the guard is set every further signal leaves the state untouched. -/
theorem C9_shutdown_exactly_once :
    (∀ (s : Signal) (sigs : List Signal),
      runSignals (s :: sigs) = { isShuttingDown := true, shutdownSequences := 1 })
    ∧ (∀ (st : ShutdownState) (s : Signal),
        st.isShuttingDown = true → handleSignal st s = st) := by
  constructor
  · intro s sigs
    have h1 : handleSignal initShutdown s =
        { isShuttingDown := true, shutdownSequences := 1 } := rfl
    show (s :: sigs).foldl handleSignal initShutdown = _
    rw [List.foldl_cons, h1]
    exact foldl_handleSignal_fixed sigs 1
  · intro st s h
    simp [handleSignal, gracefulShutdown, h]

/-- Claim C9 witness: four mixed signals shut down exactly once, and a
signal arriving with the guard already set is a no-op. -/
theorem C9_shutdown_exactly_once_witness :
    runSignals [Signal.sigint, Signal.sigterm, Signal.sighup, Signal.sigint] =
      { isShuttingDown := true, shutdownSequences := 1 }
    ∧ handleSignal { isShuttingDown := true, shutdownSequences := 1 } Signal.sigterm =
      { isShuttingDown := true, shutdownSequences := 1 } :=
  ⟨C9_shutdown_exactly_once.1 Signal.sigint [Signal.sigterm, Signal.sighup, Signal.sigint],
   C9_shutdown_exactly_once.2 { isShuttingDown := true, shutdownSequences := 1 }
     Signal.sigterm rfl⟩

/-- Claim C7: an agent whose instance has no `attach` still loads
without error and is registered with both mount paths, but its mounted
router is empty, so every request under either of its mount paths falls
through to not-found. -/
theorem C7_no_attach_registered_unreachable (info : AgentInfo) (st : HostState)
    (hname : info.manifest.nameFalsy = false)
    (himp : info.module.importOk = true)
    (hctor : info.module.ctorOk = true)
    (hatt : info.module.inst.hasAttach = false)
    (hreg : ∀ q ∈ st.agents, q.1 ≠ info.name)
    (hmw : ∀ m ∈ st.mounts, m.1 ≠ wellKnownPathOf (routeNameOf info))
    (hms : ∀ m ∈ st.mounts, m.1 ≠ shortPathOf (routeNameOf info))
    (hrid : ∀ r ∈ st.routers, r.1 ≠ st.nextRouterId) :
    (loadAgent info st).2 = none
    ∧ (loadAgent info st).1.agents = st.agents ++ [(info.name, entryOf info)]
    ∧ (entryOf info).wellKnownPath = wellKnownPathOf (routeNameOf info)
    ∧ (entryOf info).shortPath = shortPathOf (routeNameOf info)
    ∧ (∀ sub : String,
        dispatch (loadAgent info st).1 (wellKnownPathOf (routeNameOf info)) sub = none
        ∧ dispatch (loadAgent info st).1 (shortPathOf (routeNameOf info)) sub = none) := by
  have hs : loadSucceeds info = true := by
    simp [loadSucceeds, hname, himp, hctor, hatt]
  rw [loadAgent_succeeds_eq info st hs]
  have har : attachedRoutes info = [] := by
    simp [attachedRoutes, hatt]
  have hnone : st.routers.find? (fun p => p.1 == st.nextRouterId) = none := by
    rw [List.find?_eq_none]
    intro r hr
    simpa using hrid r hr
  have hroutes : routerRoutes (st.routers ++ [(st.nextRouterId, attachedRoutes info)])
      st.nextRouterId = [] := by
    simp [routerRoutes, List.find?_append, hnone, har]
  refine ⟨rfl, ?_, rfl, rfl, ?_⟩
  · exact mapSet_of_not_mem st.agents info.name (entryOf info) hreg
  · intro sub
    constructor
    · show (st.mounts ++ [(wellKnownPathOf (routeNameOf info), st.nextRouterId),
          (shortPathOf (routeNameOf info), st.nextRouterId)]).findSome? _ = none
      rw [findSome?_append_none]
      · simp [List.findSome?_cons, hroutes, lookupRoute, ite_self]
      · intro m hm
        have h1 : (m.1 == wellKnownPathOf (routeNameOf info)) = false := by
          simpa using hmw m hm
        simp [h1]
    · show (st.mounts ++ [(wellKnownPathOf (routeNameOf info), st.nextRouterId),
          (shortPathOf (routeNameOf info), st.nextRouterId)]).findSome? _ = none
      rw [findSome?_append_none]
      · simp [List.findSome?_cons, hroutes, lookupRoute, ite_self]
      · intro m hm
        have h1 : (m.1 == shortPathOf (routeNameOf info)) = false := by
          simpa using hms m hm
        simp [h1]

/-- Claim C7 witness: the sample attach-less agent loads, is registered,
and answers nothing under its canonical mount path. -/
theorem C7_no_attach_registered_unreachable_witness :
    (loadAgent c7Info initState).2 = none
    ∧ (loadAgent c7Info initState).1.agents =
        initState.agents ++ [(c7Info.name, entryOf c7Info)]
    ∧ dispatch (loadAgent c7Info initState).1 (wellKnownPathOf (routeNameOf c7Info))
        "anything" = none := by
  have h := C7_no_attach_registered_unreachable c7Info initState rfl rfl rfl rfl
    (by decide) (by decide) (by decide) (by decide)
  exact ⟨h.1, h.2.1, (h.2.2.2.2 "anything").1⟩

/-- Claim C3: a successful load registers the canonical and the short
mount path with one and the same router (a dual-mount alias), so a
request under either path is answered identically by that shared
sub-surface. -/
theorem C3_dual_mount_same_router (info : AgentInfo) (st : HostState)
    (hs : loadSucceeds info = true)
    (hmw : ∀ m ∈ st.mounts, m.1 ≠ wellKnownPathOf (routeNameOf info))
    (hms : ∀ m ∈ st.mounts, m.1 ≠ shortPathOf (routeNameOf info))
    (hrid : ∀ r ∈ st.routers, r.1 ≠ st.nextRouterId) :
    ∃ rid : Nat,
      (wellKnownPathOf (routeNameOf info), rid) ∈ (loadAgent info st).1.mounts
      ∧ (shortPathOf (routeNameOf info), rid) ∈ (loadAgent info st).1.mounts
      ∧ ∀ sub : String,
          dispatch (loadAgent info st).1 (wellKnownPathOf (routeNameOf info)) sub
            = dispatch (loadAgent info st).1 (shortPathOf (routeNameOf info)) sub := by
  rw [loadAgent_succeeds_eq info st hs]
  have hnone : st.routers.find? (fun p => p.1 == st.nextRouterId) = none := by
    rw [List.find?_eq_none]
    intro r hr
    simpa using hrid r hr
  have hroutes : routerRoutes (st.routers ++ [(st.nextRouterId, attachedRoutes info)])
      st.nextRouterId = attachedRoutes info := by
    simp [routerRoutes, List.find?_append, hnone]
  refine ⟨st.nextRouterId, by simp, by simp, ?_⟩
  intro sub
  show (st.mounts ++ [(wellKnownPathOf (routeNameOf info), st.nextRouterId),
        (shortPathOf (routeNameOf info), st.nextRouterId)]).findSome? _
    = (st.mounts ++ [(wellKnownPathOf (routeNameOf info), st.nextRouterId),
        (shortPathOf (routeNameOf info), st.nextRouterId)]).findSome? _
  rw [findSome?_append_none, findSome?_append_none]
  rotate_left
  · intro m hm
    have h1 : (m.1 == shortPathOf (routeNameOf info)) = false := by
      simpa using hms m hm
    simp [h1]
  · intro m hm
    have h1 : (m.1 == wellKnownPathOf (routeNameOf info)) = false := by
      simpa using hmw m hm
    simp [h1]
  by_cases hws : wellKnownPathOf (routeNameOf info) = shortPathOf (routeNameOf info)
  · simp [hws]
  · have h1 : (wellKnownPathOf (routeNameOf info) == shortPathOf (routeNameOf info)) = false := by
      simpa using hws
    have h2 : (shortPathOf (routeNameOf info) == wellKnownPathOf (routeNameOf info)) = false := by
      simpa using Ne.symm hws
    cases hv : lookupRoute (routerRoutes (st.routers ++
        [(st.nextRouterId, attachedRoutes info)]) st.nextRouterId) sub with
    | some b => simp [List.findSome?_cons, hv, h1, h2, hws]
    | none => simp [List.findSome?_cons, hv, h1, h2, hws]

/-- Claim C3 witness: the sample agent is mounted at both paths with the
same router and both paths answer every request identically. -/
theorem C3_dual_mount_same_router_witness :
    ∃ rid : Nat,
      (wellKnownPathOf (routeNameOf c3Info), rid) ∈ (loadAgent c3Info initState).1.mounts
      ∧ (shortPathOf (routeNameOf c3Info), rid) ∈ (loadAgent c3Info initState).1.mounts
      ∧ ∀ sub : String,
          dispatch (loadAgent c3Info initState).1 (wellKnownPathOf (routeNameOf c3Info)) sub
            = dispatch (loadAgent c3Info initState).1 (shortPathOf (routeNameOf c3Info)) sub :=
  C3_dual_mount_same_router c3Info initState (by decide) (by decide) (by decide) (by decide)

/-- Claim C10: two successful loads under the same local directory name
leave exactly one registry entry for that name — the `Map.set` of the
second load silently replaces the manifest, instance and mount paths of
the first entry — while the routers of both loads remain mounted on the
parent app. -/
theorem C10_duplicate_local_name (i1 i2 : AgentInfo) (n : String)
    (h1 : i1.name = n) (h2 : i2.name = n)
    (hs1 : loadSucceeds i1 = true) (hs2 : loadSucceeds i2 = true) :
    (loadAgent i2 (loadAgent i1 initState).1).1.agents = [(n, entryOf i2)]
    ∧ (loadAgent i2 (loadAgent i1 initState).1).1.mounts =
        [(wellKnownPathOf (routeNameOf i1), 0), (shortPathOf (routeNameOf i1), 0),
         (wellKnownPathOf (routeNameOf i2), 1), (shortPathOf (routeNameOf i2), 1)] := by
  simp only [loadAgent_succeeds_eq _ _ hs1, loadAgent_succeeds_eq _ _ hs2]
  constructor
  · simp [mapSet, initState, h1, h2]
  · simp [initState]

/-- Claim C10 witness: loading the two sample agents that share the
local name `dup` keeps one registry entry (the second) and four mounts. -/
theorem C10_duplicate_local_name_witness :
    (loadAgent c10B (loadAgent c10A initState).1).1.agents = [("dup", entryOf c10B)]
    ∧ (loadAgent c10B (loadAgent c10A initState).1).1.mounts =
        [(wellKnownPathOf (routeNameOf c10A), 0), (shortPathOf (routeNameOf c10A), 0),
         (wellKnownPathOf (routeNameOf c10B), 1), (shortPathOf (routeNameOf c10B), 1)] :=
  C10_duplicate_local_name c10A c10B "dup" rfl rfl (by decide) (by decide)

/-- Claim C1: when one record in a sequence of discovery records throws
during load (import, constructor, or attach) and all others load, every
record is still attempted, the registry ends with exactly the other
records (all present, the failed one absent), the failure is logged
under the local name of the failing record, and `loadAll` itself returns
normally for every input (it is a total function, so no per-agent
failure escapes it). -/
theorem C1_load_fault_isolation (pre post : List AgentInfo) (bad : AgentInfo)
    (hnd : ((pre ++ bad :: post).map AgentInfo.name).Nodup)
    (hok : ∀ i ∈ pre ++ post, loadSucceeds i = true)
    (hbad : loadThrows bad = true) :
    (loadAll (pre ++ bad :: post) initState).agents =
        (pre ++ post).map (fun j => (j.name, entryOf j))
    ∧ (loadAll (pre ++ bad :: post) initState).agents.length + 1 =
        (pre ++ bad :: post).length
    ∧ (∀ i ∈ pre ++ post,
        i.name ∈ (loadAll (pre ++ bad :: post) initState).agents.map Prod.fst)
    ∧ bad.name ∉ (loadAll (pre ++ bad :: post) initState).agents.map Prod.fst
    ∧ LogEntry.loadFailed bad.name ∈ (loadAll (pre ++ bad :: post) initState).log
    ∧ (∀ i ∈ pre ++ bad :: post, i.name ∈ (loadAll (pre ++ bad :: post) initState).imports) := by
  have hAg : (loadAll (pre ++ bad :: post) initState).agents =
      (loadAllLoop (pre ++ bad :: post) initState).agents := rfl
  have hIm : (loadAll (pre ++ bad :: post) initState).imports =
      (loadAllLoop (pre ++ bad :: post) initState).imports := rfl
  have hfilter : (pre ++ bad :: post).filter (fun j => loadSucceeds j) = pre ++ post := by
    rw [List.filter_append, List.filter_cons, loadThrows_not_succeeds bad hbad]
    simp only [Bool.false_eq_true, if_false]
    rw [List.filter_eq_self.mpr, List.filter_eq_self.mpr]
    · intro a ha
      exact hok a (List.mem_append_right _ ha)
    · intro a ha
      exact hok a (List.mem_append_left _ ha)
  have hdisj0 : ∀ i ∈ pre ++ bad :: post, ∀ q ∈ initState.agents, q.1 ≠ i.name := by
    intro i _ q hq
    simp [initState] at hq
  have hloop := loadAllLoop_agents (pre ++ bad :: post) initState hnd hdisj0
  rw [hfilter] at hloop
  have hagents : (loadAll (pre ++ bad :: post) initState).agents =
      (pre ++ post).map (fun j => (j.name, entryOf j)) := by
    rw [hAg, hloop]
    simp [initState]
  have hnotin : bad.name ∉ (pre ++ post).map AgentInfo.name := by
    rw [List.map_append, List.map_cons] at hnd
    rw [List.map_append]
    intro hmem
    rcases List.mem_append.mp hmem with hm1 | hm1
    · exact (List.nodup_append.mp hnd).2.2 hm1 (List.mem_cons_self _ _)
    · exact (List.nodup_cons.mp (List.nodup_append.mp hnd).2.1).1 hm1
  refine ⟨hagents, ?_, ?_, ?_, ?_, ?_⟩
  · rw [hagents]
    simp [Nat.add_assoc]
  · intro i hi
    rw [hagents]
    simp only [List.map_map]
    exact List.mem_map.mpr ⟨i, hi, rfl⟩
  · rw [hagents]
    intro hmem
    apply hnotin
    simp only [List.map_map] at hmem
    obtain ⟨j, hj, hje⟩ := List.mem_map.mp hmem
    exact List.mem_map.mpr ⟨j, hj, hje⟩
  · show LogEntry.loadFailed bad.name ∈
      (loadAllLoop (pre ++ bad :: post) initState).log ++
        [LogEntry.loadedCount (loadAllLoop (pre ++ bad :: post) initState).agents.length]
    apply List.mem_append_left
    exact loadAllLoop_loadFailed (pre ++ bad :: post) bad hbad initState
      (List.mem_append_right _ (List.mem_cons_self _ _))
  · intro i hi
    rw [hIm, loadAllLoop_imports]
    have hf : i.manifest.nameFalsy = false := by
      rcases List.mem_append.mp hi with hm1 | hm1
      · exact loadSucceeds_nameFalsy i (hok i (List.mem_append_left _ hm1))
      · rcases List.mem_cons.mp hm1 with hm2 | hm2
        · subst hm2
          exact loadThrows_nameFalsy i hbad
        · exact loadSucceeds_nameFalsy i (hok i (List.mem_append_right _ hm2))
    have hmem : i ∈ (pre ++ bad :: post).filter (fun j => !j.manifest.nameFalsy) :=
      List.mem_filter.mpr ⟨hi, by simp [hf]⟩
    simp only [initState, List.nil_append]
    exact List.mem_map_of_mem AgentInfo.name hmem

/-- Claim C1 witness: of the three sample records the middle one (whose
constructor throws) is missing from the registry while the other two are
present, and the failure is logged. -/
theorem C1_load_fault_isolation_witness :
    (([c1A] ++ c1Bad :: [c1C]).map AgentInfo.name).Nodup
    ∧ (∀ i ∈ [c1A] ++ [c1C], loadSucceeds i = true)
    ∧ loadThrows c1Bad = true
    ∧ (loadAll ([c1A] ++ c1Bad :: [c1C]) initState).agents =
        ([c1A] ++ [c1C]).map (fun j => (j.name, entryOf j)) :=
  ⟨by decide, by decide, by decide,
    (C1_load_fault_isolation [c1A] [c1C] c1Bad (by decide) (by decide) (by decide)).1⟩

end EpisteryHost
